import Mathlib

/-!
Shallow embedding of the owngoals/go-redis cache layer: the RedisStore
operations of the redisstore package and the namespaced Service facade,
stated over an explicit model of the remote Redis database and of the
redigo reply conversions. Machine integers are modelled as Int with
explicit reduction modulo 2 ^ 32 and 2 ^ 64 where Go or Redis arithmetic
wraps or reinterprets a value.
-/

namespace GoRedis

/-- The DEFAULT expiration sentinel, time.Duration(0); a Go time.Duration
is a signed 64-bit count of nanoseconds, modelled as Int. -/
def DEFAULT : Int := 0

/-- The FOREVER expiration sentinel, time.Duration(-1). -/
def FOREVER : Int := -1

/-- Nanoseconds in one second (time.Second). -/
def nsPerSecond : Int := 1000000000

/-- Magnitude bound of the signed 64-bit range, 2 ^ 63. -/
def i64Bound : Int := 9223372036854775808

/-- Size of the 64-bit value space, 2 ^ 64. -/
def u64Mod : Int := 18446744073709551616

/-- Bound of the signed 32-bit range, 2 ^ 31. -/
def i32Bound : Int := 2147483648

/-- Size of the 32-bit value space, 2 ^ 32. -/
def u32Mod : Int := 4294967296

/-- Go int64 wrapping arithmetic: reduce an integer into [-2 ^ 63, 2 ^ 63). -/
def wrap64 (n : Int) : Int := (n + i64Bound) % u64Mod - i64Bound

/-- Go uint64(x) reinterpretation of a signed 64-bit value. -/
def toUint64 (n : Int) : Int := n % u64Mod

/-- Go int32(x) conversion: reduce an integer into [-2 ^ 31, 2 ^ 31). -/
def wrap32 (n : Int) : Int := (n + i32Bound) % u32Mod - i32Bound

/-- A Go interface value handed to the cache API; goNil is the nil
interface value. -/
inductive GoValue
  | goNil
  | goStr (s : String)
  | goInt (n : Int)
deriving DecidableEq

/-- Bytes stored under a key in Redis: either integer-formatted text, as
written by Increment and parseable by redis.Int64 and DECRBY, or some
other byte payload. -/
inductive Payload
  | intText (n : Int)
  | blob (v : GoValue)
deriving DecidableEq

/-- Modelled from the spec: the serializer collaborator of the store (the
serializer package, which is not under src/), exposing
serialize(value) -> bytes as an opaque injective byte codec; integral
values are stored as decimal text, other payloads as opaque bytes.
Encoding never fails in this model. -/
def serialize : GoValue → Payload
  | .goInt n => .intText n
  | v => .blob v

/-- One Redis entry: the stored bytes plus the pending expiration in
seconds; none means the key persists. -/
structure Entry where
  val : Payload
  ttlSecs : Option Int
deriving DecidableEq

/-- The remote Redis database of the selected logical index, as an
association list from key to entry. -/
abbrev Store := List (String × Entry)

/-- Look a key up in the database. -/
def lookupKey : Store → String → Option Entry
  | [], _ => none
  | (k, e) :: rest, key => if k = key then some e else lookupKey rest key

/-- Write an entry under a key, replacing any previous entry. -/
def writeKey : Store → String → Entry → Store
  | [], key, e => [(key, e)]
  | (k, old) :: rest, key, e =>
      if k = key then (key, e) :: rest else (k, old) :: writeKey rest key e

/-- Errors surfaced by the store layer: the three exported sentinel errors
of the redisstore package, plus transport failures and the redigo or Redis
integer-conversion failures. -/
inductive CacheErr
  | cacheMiss
  | notStored
  | notSupport
  | transport (e : String)
  | notInteger
deriving DecidableEq

instance {ε α : Type} [DecidableEq ε] [DecidableEq α] : DecidableEq (Except ε α) := fun x y =>
  match x, y with
  | .ok a, .ok b =>
      if h : a = b then isTrue (by rw [h]) else isFalse fun hc => h (Except.ok.inj hc)
  | .error a, .error b =>
      if h : a = b then isTrue (by rw [h]) else isFalse fun hc => h (Except.error.inj hc)
  | .ok _, .error _ => isFalse fun hc => Except.noConfusion hc
  | .error _, .ok _ => isFalse fun hc => Except.noConfusion hc

/-- Reply of GET key: the stored bytes, or nil when the key is absent. -/
def redisGet (st : Store) (key : String) : Option Payload :=
  (lookupKey st key).map Entry.val

/-- SET key bytes: plain unbounded write; per Redis semantics a plain SET
discards any time to live previously attached to the key. -/
def redisSet (st : Store) (key : String) (p : Payload) : Store :=
  writeKey st key ⟨p, none⟩

/-- SETEX key seconds bytes: time-bounded write. -/
def redisSetex (st : Store) (key : String) (secs : Int) (p : Payload) : Store :=
  writeKey st key ⟨p, some secs⟩

/-- Integer reply of EXISTS key: 1 when the key is present, 0 otherwise. -/
def redisExistsReply (st : Store) (key : String) : Int :=
  if (lookupKey st key).isSome then 1 else 0

/-- redigo redis.Bool applied to an integer-valued reply together with the
transport error of the call: a set error wins; a nil reply converts to an
error; an integer converts to its comparison with zero. -/
def redisBoolReply (reply : Option Int) (err : Option String) : Except CacheErr Bool :=
  match err with
  | some e => .error (.transport e)
  | none =>
    match reply with
    | none => .error .notInteger
    | some n => .ok (n != 0)

/-- redigo redis.Int64 applied to stored bytes: integer-formatted text in
the signed 64-bit range parses to its value; anything else fails. -/
def redisInt64Payload : Payload → Except CacheErr Int
  | .intText n =>
      if n < -i64Bound ∨ i64Bound ≤ n then .error .notInteger else .ok n
  | .blob _ => .error .notInteger

/-- redigo redis.Int64 applied to a GET reply together with the transport
error of the call. -/
def redisInt64Reply (raw : Option Payload) (err : Option String) : Except CacheErr Int :=
  match err with
  | some e => .error (.transport e)
  | none =>
    match raw with
    | none => .error .notInteger
    | some p => redisInt64Payload p

/-- DECRBY key amount: the amount must parse as a signed 64-bit integer,
the stored value must be integer text, and the decremented value must stay
in the signed 64-bit range; the new value is stored, keeping the time to
live of the entry (a missing key starts from zero), and returned. -/
def redisDecrBy (st : Store) (key : String) (amt : Int) : Except CacheErr (Int × Store) :=
  if amt < -i64Bound ∨ i64Bound ≤ amt then .error .notInteger
  else
    match lookupKey st key with
    | none =>
      let nv := 0 - amt
      if nv < -i64Bound ∨ i64Bound ≤ nv then .error .notInteger
      else .ok (nv, writeKey st key ⟨.intText nv, none⟩)
    | some e =>
      match redisInt64Payload e.val with
      | .error er => .error er
      | .ok n =>
        let nv := n - amt
        if nv < -i64Bound ∨ i64Bound ≤ nv then .error .notInteger
        else .ok (nv, writeKey st key ⟨.intText nv, e.ttlSecs⟩)

/-- A write command issued to Redis by RedisStore.invoke. -/
inductive Cmd
  | setCmd (key : String) (p : Payload)
  | setexCmd (key : String) (secs : Int) (p : Payload)
deriving DecidableEq

/-- The switch at the top of RedisStore.invoke: the DEFAULT sentinel is
replaced with the configured default expiration, the FOREVER sentinel with
zero, anything else is kept. -/
def resolveExpires (defaultExpiration expires : Int) : Int :=
  if expires = DEFAULT then defaultExpiration
  else if expires = FOREVER then 0 else expires

/-- RedisStore.invoke: resolve the sentinels, serialize the value, and
issue SETEX key int32(expires/time.Second) bytes when the resolved
expiration is positive, a plain SET otherwise. -/
def invokeCmd (defaultExpiration : Int) (key : String) (value : GoValue)
    (expires : Int) : Cmd :=
  if resolveExpires defaultExpiration expires > 0 then
    Cmd.setexCmd key (wrap32 (Int.tdiv (resolveExpires defaultExpiration expires) nsPerSecond))
      (serialize value)
  else Cmd.setCmd key (serialize value)

/-- Effect of a write command on the database. -/
def applyCmd (st : Store) : Cmd → Store
  | .setCmd key p => redisSet st key p
  | .setexCmd key secs p => redisSetex st key secs p

/-- RedisStore, the cache with redis persistence; only the configured
default expiration matters to the cache semantics, the pool being
connection plumbing. -/
structure RedisStore where
  defaultExpiration : Int
deriving DecidableEq

/-- The unexported exists helper: redis.Bool(conn.Do("EXISTS", key)) with
the conversion error discarded, so an error leaves the zero value false. -/
def existsKey (st : Store) (key : String) : Bool :=
  match redisBoolReply (some (redisExistsReply st key)) none with
  | .ok b => b
  | .error _ => false

/-- RedisStore.Set: unconditional write through invoke. -/
def RedisStore.Set (c : RedisStore) (st : Store) (key : String) (value : GoValue)
    (expires : Int) : Option CacheErr × Store :=
  (none, applyCmd st (invokeCmd c.defaultExpiration key value expires))

/-- RedisStore.Add: write through invoke only when the key is absent. -/
def RedisStore.Add (c : RedisStore) (st : Store) (key : String) (value : GoValue)
    (expires : Int) : Option CacheErr × Store :=
  if existsKey st key then (some .notStored, st)
  else (none, applyCmd st (invokeCmd c.defaultExpiration key value expires))

/-- RedisStore.Replace: reject an absent key, then write through invoke,
then reject a nil value after the write has already been issued. -/
def RedisStore.Replace (c : RedisStore) (st : Store) (key : String) (value : GoValue)
    (expires : Int) : Option CacheErr × Store :=
  if !existsKey st key then (some .notStored, st)
  else
    let st' := applyCmd st (invokeCmd c.defaultExpiration key value expires)
    if value = GoValue.goNil then (some .notStored, st')
    else (none, st')

/-- Outcome of RedisStore.Get. -/
inductive GetOutcome
  | cacheMiss
  | failed (e : String)
  | deserialized (p : Payload)
deriving DecidableEq

/-- RedisStore.Get as a function of the raw GET reply and of the transport
error of the call: a nil reply is a cache miss before the error is
consulted; then redis.Bytes surfaces the error; then the payload is
handed to the deserializer. -/
def RedisStore.GetFromReply (raw : Option Payload) (err : Option String) : GetOutcome :=
  match raw with
  | none => .cacheMiss
  | some p =>
    match err with
    | some e => .failed e
    | none => .deserialized p

/-- RedisStore.Exists as a function of the EXISTS reply and of the
transport error of the call: any error yields false, otherwise the
converted boolean is returned. -/
def RedisStore.ExistsFromReply (reply : Option Int) (err : Option String) : Bool :=
  match redisBoolReply reply err with
  | .ok b => b
  | .error _ => false

/-- RedisStore.SetExpire as a function of the EXPIRE reply and of the
transport error of the call: any error yields false, otherwise the
converted boolean is returned. -/
def RedisStore.SetExpireFromReply (reply : Option Int) (err : Option String) : Bool :=
  match redisBoolReply reply err with
  | .ok b => b
  | .error _ => false

/-- One DECRBY round trip as Decrement issues it: the returned integer is
reinterpreted as uint64; on error the database is unchanged. -/
def decrStep (st : Store) (key : String) (amt : Int) : Except CacheErr Int × Store :=
  match redisDecrBy st key amt with
  | .ok (n, st') => (.ok (toUint64 n), st')
  | .error e => (.error e, st)

/-- RedisStore.Increment on a transport-quiet path: GET the value, a nil
reply being a cache miss, parse it as int64, add the delta in wrapping
int64 arithmetic, write the sum back with a plain SET, and return the sum
reinterpreted as uint64. -/
def RedisStore.Increment (c : RedisStore) (st : Store) (key : String) (delta : Int) :
    Except CacheErr Int × Store :=
  match redisGet st key with
  | none => (.error .cacheMiss, st)
  | some p =>
    match redisInt64Payload p with
    | .error e => (.error e, st)
    | .ok currentVal =>
      (.ok (toUint64 (wrap64 (currentVal + wrap64 delta))),
        redisSet st key (.intText (wrap64 (currentVal + wrap64 delta))))

/-- RedisStore.Decrement: reject an absent key, read the current value,
and when the delta exceeds the current value reinterpreted as uint64,
DECRBY by the current value, zeroing the entry; otherwise DECRBY by the
delta. -/
def RedisStore.Decrement (c : RedisStore) (st : Store) (key : String) (delta : Int) :
    Except CacheErr Int × Store :=
  if !existsKey st key then (.error .cacheMiss, st)
  else
    match redisInt64Reply (redisGet st key) none with
    | .ok currentVal =>
      if delta > toUint64 currentVal then decrStep st key currentVal
      else decrStep st key delta
    | .error _ => decrStep st key delta

/-- Service, the namespaced facade; its first field is the namespace
string, which the Go source calls by a name that is reserved in Lean. -/
structure Service where
  pfx : String
  store : RedisStore
deriving DecidableEq

/-- NewService: a Service delegating to a store whose default expiration
is the DEFAULT sentinel. -/
def NewService (pfx : String) : Service :=
  ⟨pfx, ⟨DEFAULT⟩⟩

/-- Service.cacheKey: the effective store key of a caller key. -/
def Service.cacheKey (s : Service) (key : String) : String :=
  s.pfx ++ ":" ++ key

/-- Service.Set: delegate to the store under the rewritten key. -/
def Service.Set (s : Service) (st : Store) (key : String) (value : GoValue)
    (expire : Int) : Option CacheErr × Store :=
  RedisStore.Set s.store st (Service.cacheKey s key) value expire

/-- Service.Get on a transport-quiet path: read the rewritten key. -/
def Service.Get (s : Service) (st : Store) (key : String) : GetOutcome :=
  RedisStore.GetFromReply (redisGet st (Service.cacheKey s key)) none

/-! Helper lemmas about the database model. -/

theorem lookupKey_writeKey_self (st : Store) (key : String) (e : Entry) :
    lookupKey (writeKey st key e) key = some e := by
  induction st with
  | nil => simp [writeKey, lookupKey]
  | cons hd tl ih =>
    obtain ⟨k, old⟩ := hd
    by_cases h : k = key
    · simp [writeKey, h, lookupKey]
    · simp [writeKey, h, lookupKey, ih]

theorem lookupKey_writeKey_ne (st : Store) (key key2 : String) (e : Entry)
    (h : key ≠ key2) : lookupKey (writeKey st key e) key2 = lookupKey st key2 := by
  induction st with
  | nil => simp [writeKey, lookupKey, h]
  | cons hd tl ih =>
    obtain ⟨k, old⟩ := hd
    by_cases hk : k = key
    · subst hk; simp [writeKey, lookupKey, h]
    · simp [writeKey, hk, lookupKey, ih]

theorem existsKey_eq_isSome (st : Store) (key : String) :
    existsKey st key = (lookupKey st key).isSome := by
  by_cases h : (lookupKey st key).isSome <;>
    simp [existsKey, redisBoolReply, redisExistsReply, h]

theorem lookupKey_applyCmd_invoke_self (st : Store) (dflt : Int) (key : String)
    (v : GoValue) (ex : Int) :
    (lookupKey (applyCmd st (invokeCmd dflt key v ex)) key).map Entry.val
      = some (serialize v) := by
  unfold invokeCmd
  by_cases h : resolveExpires dflt ex > 0
  · simp [h, applyCmd, redisSetex, lookupKey_writeKey_self]
  · simp [h, applyCmd, redisSet, lookupKey_writeKey_self]

theorem lookupKey_applyCmd_invoke_ne (st : Store) (dflt : Int) (key key2 : String)
    (v : GoValue) (ex : Int) (h : key ≠ key2) :
    lookupKey (applyCmd st (invokeCmd dflt key v ex)) key2 = lookupKey st key2 := by
  unfold invokeCmd
  by_cases hx : resolveExpires dflt ex > 0
  · simp [hx, applyCmd, redisSetex, lookupKey_writeKey_ne _ _ _ _ h]
  · simp [hx, applyCmd, redisSet, lookupKey_writeKey_ne _ _ _ _ h]

theorem string_append_right_cancel (a b c : String) (h : a ++ c = b ++ c) : a = b := by
  obtain ⟨la⟩ := a
  obtain ⟨lb⟩ := b
  obtain ⟨lc⟩ := c
  have hd : la ++ lc = lb ++ lc := congrArg String.data h
  have hlen : la.length = lb.length := by
    have := congrArg List.length hd
    simp only [List.length_append] at this
    omega
  exact congrArg String.mk (List.append_inj hd hlen).1

theorem cacheKey_inj_of_pfx_ne (s1 s2 : Service) (key : String) (h : s1.pfx ≠ s2.pfx) :
    Service.cacheKey s1 key ≠ Service.cacheKey s2 key := by
  intro hc
  apply h
  unfold Service.cacheKey at hc
  have h2 : s1.pfx ++ ":" = s2.pfx ++ ":" := string_append_right_cancel _ _ _ hc
  exact string_append_right_cancel _ _ _ h2

/-! Claim theorems. -/

/-- C4: Get classifies a nil GET reply as a cache miss, whatever the
transport error of the call, the nil check coming before the error is
consulted. -/
theorem get_nil_reply_is_cache_miss (err : Option String) :
    RedisStore.GetFromReply none err = GetOutcome.cacheMiss := rfl

/-- C6: Exists and SetExpire always return a boolean: any transport error
makes the result false, and without an error they report the converted
reply. -/
theorem exists_setExpire_never_raise (reply : Option Int) (e : String) (n : Int) :
    RedisStore.ExistsFromReply reply (some e) = false ∧
    RedisStore.SetExpireFromReply reply (some e) = false ∧
    RedisStore.ExistsFromReply (some n) none = (n != 0) ∧
    RedisStore.SetExpireFromReply (some n) none = (n != 0) :=
  ⟨rfl, rfl, rfl, rfl⟩

/-- C3: Replace of an existing key with the nil value marker returns the
not-stored error even though the existence precondition passed. -/
theorem replace_nil_returns_notStored (c : RedisStore) (st : Store) (key : String)
    (ttl : Int) (h : existsKey st key = true) :
    (RedisStore.Replace c st key GoValue.goNil ttl).1 = some CacheErr.notStored := by
  simp [RedisStore.Replace, h]

theorem replace_nil_returns_notStored_witness :
    (RedisStore.Replace ⟨0⟩ [("k", ⟨Payload.blob (GoValue.goStr "v"), none⟩)]
      "k" GoValue.goNil 0).1 = some CacheErr.notStored :=
  replace_nil_returns_notStored ⟨0⟩ [("k", ⟨Payload.blob (GoValue.goStr "v"), none⟩)]
    "k" 0 (by decide)

/-- C8: Replace of an existing key with the nil value marker still issues
the write before its nil check: the resulting database is the one a plain
Set would produce, and the entry now holds the serialized nil payload. -/
theorem replace_nil_still_writes (c : RedisStore) (st : Store) (key : String)
    (ttl : Int) (h : existsKey st key = true) :
    (RedisStore.Replace c st key GoValue.goNil ttl).2
        = (RedisStore.Set c st key GoValue.goNil ttl).2 ∧
    (lookupKey (RedisStore.Replace c st key GoValue.goNil ttl).2 key).map Entry.val
        = some (serialize GoValue.goNil) := by
  constructor
  · simp [RedisStore.Replace, RedisStore.Set, h]
  · simp [RedisStore.Replace, h, lookupKey_applyCmd_invoke_self]

theorem replace_nil_still_writes_witness :
    (RedisStore.Replace ⟨0⟩ [("k", ⟨Payload.blob (GoValue.goStr "v"), none⟩)]
        "k" GoValue.goNil 0).2
      = (RedisStore.Set ⟨0⟩ [("k", ⟨Payload.blob (GoValue.goStr "v"), none⟩)]
        "k" GoValue.goNil 0).2 ∧
    (lookupKey (RedisStore.Replace ⟨0⟩ [("k", ⟨Payload.blob (GoValue.goStr "v"), none⟩)]
        "k" GoValue.goNil 0).2 "k").map Entry.val
      = some (serialize GoValue.goNil) :=
  replace_nil_still_writes ⟨0⟩ [("k", ⟨Payload.blob (GoValue.goStr "v"), none⟩)]
    "k" 0 (by decide)

/-- C7: the effective store key is exactly the namespace string, a colon,
and the caller key; and a write by one Service is invisible to a Service
holding a distinct namespace string reading the same raw key. -/
theorem service_key_isolation (s1 s2 : Service) (key : String) (st : Store)
    (v : GoValue) (ex : Int) (h : s1.pfx ≠ s2.pfx) :
    Service.cacheKey s1 key = s1.pfx ++ ":" ++ key ∧
    Service.Get s2 (Service.Set s1 st key v ex).2 key = Service.Get s2 st key := by
  refine ⟨rfl, ?_⟩
  have hne : Service.cacheKey s1 key ≠ Service.cacheKey s2 key :=
    cacheKey_inj_of_pfx_ne s1 s2 key h
  unfold Service.Get Service.Set RedisStore.Set redisGet
  rw [lookupKey_applyCmd_invoke_ne _ _ _ _ _ _ hne]

theorem service_key_isolation_witness :
    Service.cacheKey ⟨"app", ⟨0⟩⟩ "u" = "app" ++ ":" ++ "u" ∧
    Service.Get ⟨"web", ⟨0⟩⟩
        (Service.Set ⟨"app", ⟨0⟩⟩ [] "u" (GoValue.goStr "x") 0).2 "u"
      = Service.Get ⟨"web", ⟨0⟩⟩ [] "u" :=
  service_key_isolation ⟨"app", ⟨0⟩⟩ ⟨"web", ⟨0⟩⟩ "u" [] (GoValue.goStr "x") 0 (by decide)

/-- C5: a successful Add on an absent key followed by a second sequential
Add of the same key: the second call returns the not-stored error, leaves
the database unchanged, and the stored payload is still the first value. -/
theorem add_then_add_notStored (c : RedisStore) (st : Store) (key : String)
    (v1 v2 : GoValue) (e1 e2 : Int) (h : lookupKey st key = none) :
    (RedisStore.Add c st key v1 e1).1 = none ∧
    (RedisStore.Add c (RedisStore.Add c st key v1 e1).2 key v2 e2).1
        = some CacheErr.notStored ∧
    (RedisStore.Add c (RedisStore.Add c st key v1 e1).2 key v2 e2).2
        = (RedisStore.Add c st key v1 e1).2 ∧
    (lookupKey (RedisStore.Add c st key v1 e1).2 key).map Entry.val
        = some (serialize v1) := by
  have h1 : existsKey st key = false := by
    rw [existsKey_eq_isSome, h]; rfl
  have hw := lookupKey_applyCmd_invoke_self st c.defaultExpiration key v1 e1
  have h2 : existsKey (applyCmd st (invokeCmd c.defaultExpiration key v1 e1)) key = true := by
    rw [existsKey_eq_isSome]
    cases hl : lookupKey (applyCmd st (invokeCmd c.defaultExpiration key v1 e1)) key
    · rw [hl] at hw; simp at hw
    · rfl
  refine ⟨?_, ?_, ?_, ?_⟩ <;> simp [RedisStore.Add, h1, h2, hw]

theorem add_then_add_notStored_witness :
    (RedisStore.Add ⟨0⟩ [] "k" (GoValue.goStr "a") 0).1 = none ∧
    (RedisStore.Add ⟨0⟩ (RedisStore.Add ⟨0⟩ [] "k" (GoValue.goStr "a") 0).2 "k"
        (GoValue.goStr "b") 0).1 = some CacheErr.notStored ∧
    (RedisStore.Add ⟨0⟩ (RedisStore.Add ⟨0⟩ [] "k" (GoValue.goStr "a") 0).2 "k"
        (GoValue.goStr "b") 0).2 = (RedisStore.Add ⟨0⟩ [] "k" (GoValue.goStr "a") 0).2 ∧
    (lookupKey (RedisStore.Add ⟨0⟩ [] "k" (GoValue.goStr "a") 0).2 "k").map Entry.val
        = some (serialize (GoValue.goStr "a")) :=
  add_then_add_notStored ⟨0⟩ [] "k" (GoValue.goStr "a") (GoValue.goStr "b") 0 0 rfl

/-- Database of one key holding the integer text -1, exercising C1 on a
negative stored value. -/
def negStore : Store := [("k", ⟨Payload.intText (-1), none⟩)]

/-- C1 counterexample: with stored integer value -1 and delta 1, the delta
exceeds the stored value, yet Decrement returns 18446744073709551614
rather than the claimed 0: the unsigned reinterpretation of -1 defeats the
clamp comparison. -/
theorem decrement_negative_value_counterexample :
    ((1 : Int) > -1) ∧
    (RedisStore.Decrement ⟨0⟩ negStore "k" 1).1 = Except.ok 18446744073709551614 ∧
    (RedisStore.Decrement ⟨0⟩ negStore "k" 1).1 ≠ Except.ok 0 := by
  refine ⟨by decide, by decide, by decide⟩

/-- C1 amended: for a stored nonnegative signed 64-bit integer value n and
an unsigned delta d, Decrement returns n - d when d is at most n, and
clamps the result to 0, never a negative value, when d exceeds n. -/
theorem decrement_saturates_at_zero (c : RedisStore) (st : Store) (key : String)
    (n d : Int) (tt : Option Int)
    (hl : lookupKey st key = some ⟨Payload.intText n, tt⟩)
    (hn0 : 0 ≤ n) (hn1 : n < i64Bound) (hd0 : 0 ≤ d) (hd1 : d < u64Mod) :
    (d ≤ n → (RedisStore.Decrement c st key d).1 = Except.ok (n - d)) ∧
    (n < d → (RedisStore.Decrement c st key d).1 = Except.ok 0) := by
  have hB : i64Bound = 9223372036854775808 := rfl
  have hM : u64Mod = 18446744073709551616 := rfl
  have hex : existsKey st key = true := by
    rw [existsKey_eq_isSome, hl]; rfl
  have hget : redisGet st key = some (Payload.intText n) := by
    unfold redisGet; rw [hl]; rfl
  have hparse : redisInt64Payload (Payload.intText n) = Except.ok n := by
    simp only [redisInt64Payload]
    rw [if_neg]
    omega
  have hu : toUint64 n = n := by
    unfold toUint64
    exact Int.emod_eq_of_lt hn0 (by omega)
  constructor
  · intro hle
    have hgt : ¬ d > toUint64 n := by rw [hu]; omega
    have hdec : redisDecrBy st key d
        = Except.ok (n - d, writeKey st key ⟨Payload.intText (n - d), tt⟩) := by
      unfold redisDecrBy
      rw [if_neg (by omega), hl]
      simp only [hparse]
      rw [if_neg (by omega)]
    have hu2 : toUint64 (n - d) = n - d := by
      unfold toUint64
      exact Int.emod_eq_of_lt (by omega) (by omega)
    simp [RedisStore.Decrement, hex, redisInt64Reply, hget, hparse, hgt,
      decrStep, hdec, hu2]
  · intro hlt
    have hgt : d > toUint64 n := by rw [hu]; omega
    have hdec : redisDecrBy st key n
        = Except.ok (0, writeKey st key ⟨Payload.intText 0, tt⟩) := by
      unfold redisDecrBy
      rw [if_neg (by omega), hl]
      simp only [hparse]
      rw [if_neg (by omega)]
      simp
    have ht0 : toUint64 (0 : Int) = 0 := by decide
    simp [RedisStore.Decrement, hex, redisInt64Reply, hget, hparse, hgt,
      decrStep, hdec, ht0]

theorem decrement_saturates_at_zero_witness :
    (RedisStore.Decrement ⟨0⟩ [("k", ⟨Payload.intText 5, none⟩)] "k" 3).1
        = Except.ok 2 ∧
    (RedisStore.Decrement ⟨0⟩ [("k", ⟨Payload.intText 5, none⟩)] "k" 9).1
        = Except.ok 0 := by
  constructor
  · have h := decrement_saturates_at_zero ⟨0⟩ [("k", ⟨Payload.intText 5, none⟩)] "k"
      5 3 none rfl (by decide) (by decide) (by decide) (by decide)
    have h2 := h.1 (by decide)
    norm_num at h2
    exact h2
  · have h := decrement_saturates_at_zero ⟨0⟩ [("k", ⟨Payload.intText 5, none⟩)] "k"
      5 9 none rfl (by decide) (by decide) (by decide) (by decide)
    exact h.2 (by decide)

/-- C2 counterexample: for a positive time to live of 2 ^ 31 seconds, the
issued SETEX carries the seconds argument -2147483648, the int32 wrap of
the rounded-down 2147483648, so the seconds argument is not the time to
live rounded down to whole seconds. -/
theorem invoke_seconds_truncation_counterexample :
    invokeCmd 0 "k" (GoValue.goStr "v") 2147483648000000000
      = Cmd.setexCmd "k" (-2147483648) (Payload.blob (GoValue.goStr "v")) ∧
    Int.tdiv 2147483648000000000 nsPerSecond = 2147483648 ∧
    ((2147483648 : Int) ≠ -2147483648) := by
  refine ⟨by decide, by decide, by decide⟩

/-- C2 amended: invoke substitutes the configured default expiration for
the DEFAULT sentinel, issues a plain SET for the FOREVER sentinel, and for
a positive duration issues SETEX whose seconds argument is the duration in
whole seconds truncated to a signed 32-bit value, which equals the
rounded-down duration whenever that duration is below 2 ^ 31 seconds. -/
theorem invoke_resolves_ttl (dflt ttl : Int) (key : String) (v : GoValue) :
    (invokeCmd dflt key v DEFAULT
      = if dflt > 0 then
          Cmd.setexCmd key (wrap32 (Int.tdiv dflt nsPerSecond)) (serialize v)
        else Cmd.setCmd key (serialize v)) ∧
    (invokeCmd dflt key v FOREVER = Cmd.setCmd key (serialize v)) ∧
    (0 < ttl →
      invokeCmd dflt key v ttl
        = Cmd.setexCmd key (wrap32 (Int.tdiv ttl nsPerSecond)) (serialize v)) ∧
    (0 < ttl → ttl < i32Bound * nsPerSecond →
      invokeCmd dflt key v ttl
        = Cmd.setexCmd key (Int.tdiv ttl nsPerSecond) (serialize v)) := by
  have hI : i32Bound = 2147483648 := rfl
  have hN : nsPerSecond = 1000000000 := rfl
  have hU : u32Mod = 4294967296 := rfl
  have hres0 : resolveExpires dflt DEFAULT = dflt := by
    unfold resolveExpires DEFAULT FOREVER
    simp
  have hresF : resolveExpires dflt FOREVER = 0 := by
    unfold resolveExpires DEFAULT FOREVER
    norm_num
  refine ⟨?_, ?_, ?_, ?_⟩
  · unfold invokeCmd
    rw [hres0]
  · unfold invokeCmd
    rw [hresF]
    norm_num
  · intro hpos
    have ht1 : ¬ (ttl = DEFAULT) := by simp only [DEFAULT]; omega
    have ht2 : ¬ (ttl = FOREVER) := by simp only [FOREVER]; omega
    have hres : resolveExpires dflt ttl = ttl := by
      unfold resolveExpires
      rw [if_neg ht1, if_neg ht2]
    unfold invokeCmd
    rw [hres, if_pos hpos]
  · intro hpos hlt
    have ht1 : ¬ (ttl = DEFAULT) := by simp only [DEFAULT]; omega
    have ht2 : ¬ (ttl = FOREVER) := by simp only [FOREVER]; omega
    have hres : resolveExpires dflt ttl = ttl := by
      unfold resolveExpires
      rw [if_neg ht1, if_neg ht2]
    have hns : (0 : Int) ≤ nsPerSecond := by rw [hN]; norm_num
    have hdiv0 : 0 ≤ Int.tdiv ttl nsPerSecond :=
      Int.tdiv_nonneg (Int.le_of_lt hpos) hns
    have hdiv : Int.tdiv ttl nsPerSecond = ttl / nsPerSecond :=
      Int.tdiv_eq_ediv (Int.le_of_lt hpos) hns
    have hdivlt : Int.tdiv ttl nsPerSecond < i32Bound := by
      rw [hdiv, hI, hN]
      rw [hI, hN] at hlt
      omega
    have hwrap : wrap32 (Int.tdiv ttl nsPerSecond) = Int.tdiv ttl nsPerSecond := by
      unfold wrap32
      rw [hI, hU]
      rw [hI] at hdivlt
      omega
    unfold invokeCmd
    rw [hres, if_pos hpos, hwrap]

theorem invoke_resolves_ttl_witness :
    invokeCmd 0 "k" GoValue.goNil 5000000000
      = Cmd.setexCmd "k" (Int.tdiv 5000000000 nsPerSecond) (serialize GoValue.goNil) :=
  (invoke_resolves_ttl 0 5000000000 "k" GoValue.goNil).2.2.2 (by decide) (by decide)

/-- C9: a successful Increment writes the sum back with a plain SET, so
the entry loses the time to live it previously had. -/
theorem increment_clears_ttl (c : RedisStore) (st : Store) (key : String)
    (n d t : Int)
    (hl : lookupKey st key = some ⟨Payload.intText n, some t⟩)
    (hn0 : -i64Bound ≤ n) (hn1 : n < i64Bound) :
    (RedisStore.Increment c st key d).1
        = Except.ok (toUint64 (wrap64 (n + wrap64 d))) ∧
    lookupKey (RedisStore.Increment c st key d).2 key
        = some ⟨Payload.intText (wrap64 (n + wrap64 d)), none⟩ := by
  have hget : redisGet st key = some (Payload.intText n) := by
    unfold redisGet; rw [hl]; rfl
  have hparse : redisInt64Payload (Payload.intText n) = Except.ok n := by
    simp only [redisInt64Payload]
    rw [if_neg]
    omega
  constructor
  · simp [RedisStore.Increment, hget, hparse]
  · simp [RedisStore.Increment, hget, hparse, redisSet, lookupKey_writeKey_self]

theorem increment_clears_ttl_witness :
    (RedisStore.Increment ⟨0⟩ [("k", ⟨Payload.intText 5, some 30⟩)] "k" 2).1
        = Except.ok (toUint64 (wrap64 (5 + wrap64 2))) ∧
    lookupKey (RedisStore.Increment ⟨0⟩ [("k", ⟨Payload.intText 5, some 30⟩)] "k" 2).2 "k"
        = some ⟨Payload.intText (wrap64 (5 + wrap64 2)), none⟩ :=
  increment_clears_ttl ⟨0⟩ [("k", ⟨Payload.intText 5, some 30⟩)] "k" 5 2 30 rfl
    (by decide) (by decide)

/-- C10: Increment computes the sum in wrapping signed 64-bit arithmetic
and returns its unsigned reinterpretation, equal to the stored value plus
the delta reduced modulo 2 ^ 64. -/
theorem increment_wraps_mod_u64 (c : RedisStore) (st : Store) (key : String)
    (n d : Int) (tt : Option Int)
    (hl : lookupKey st key = some ⟨Payload.intText n, tt⟩)
    (hn0 : -i64Bound ≤ n) (hn1 : n < i64Bound) (hd0 : 0 ≤ d) (hd1 : d < u64Mod) :
    (RedisStore.Increment c st key d).1 = Except.ok ((n + d) % u64Mod) := by
  have hget : redisGet st key = some (Payload.intText n) := by
    unfold redisGet; rw [hl]; rfl
  have hparse : redisInt64Payload (Payload.intText n) = Except.ok n := by
    simp only [redisInt64Payload]
    rw [if_neg]
    omega
  have harith : toUint64 (wrap64 (n + wrap64 d)) = (n + d) % u64Mod := by
    unfold toUint64 wrap64 u64Mod i64Bound
    omega
  simp [RedisStore.Increment, hget, hparse, harith]

theorem increment_wraps_mod_u64_witness :
    (RedisStore.Increment ⟨0⟩ [("k", ⟨Payload.intText 9223372036854775807, none⟩)]
        "k" 1).1 = Except.ok 9223372036854775808 := by
  have h := increment_wraps_mod_u64 ⟨0⟩
    [("k", ⟨Payload.intText 9223372036854775807, none⟩)] "k" 9223372036854775807 1 none
    rfl (by decide) (by decide) (by decide) (by decide)
  have e : ((9223372036854775807 : Int) + 1) % u64Mod = 9223372036854775808 := by decide
  rw [e] at h
  exact h

end GoRedis
